import Mathlib

/-!
Verification model of `gae_datastorecache` (`models.py`): a key-value cache
facade over a record store, with lazy expiration, key normalization (with
SHA-256 hashing of over-long keys) and memcache-compatible operations
`set` / `get` / `delete` / `add` / `replace` / `flush_all`.

Python dynamic values that reach `_parse_key` / `_parse_time` are embedded as
the inductive `PyVal`; numbers are collapsed to `Int` (the code only compares
and adds them).  Timestamps (`datetime.datetime`) are embedded as epoch
seconds (`Int`).  The datastore is a list of records tagged with identities;
each fallible store call (`put`, `delete`, `db.delete`) takes an explicit
success flag mirroring the `try`/`except` blocks of the source.  Python
exceptions that escape an operation (`TypeError`, `ValueError`) are `Except`
errors.
-/

/-- A Python value as far as this module inspects values: strings, numbers
(`int` / `long` / `float` collapsed to `Int`), tuples, lists and `None`. -/
inductive PyVal where
  | vstr (s : String)
  | vnum (n : Int)
  | vtuple (xs : List PyVal)
  | vlist (xs : List PyVal)
  | vnone

namespace Sha256

/-- Truncate to a 32-bit word. -/
def mask32 (x : Nat) : Nat := x % 2 ^ 32

/-- 32-bit right rotation. -/
def rotr (x n : Nat) : Nat := mask32 ((x >>> n) ||| (x <<< (32 - n)))

/-- 32-bit complement. -/
def not32 (x : Nat) : Nat := x ^^^ (2 ^ 32 - 1)

/-- Iterate a function `n` times. -/
def iterN (f : α → α) : Nat → α → α
  | 0, x => x
  | n + 1, x => iterN f n (f x)

/-- Fuel-driven worker for `chunksOf` (structural recursion on the fuel, so
the definition reduces inside the kernel). -/
def chunksFuel (n : Nat) : Nat → List Nat → List (List Nat)
  | 0, _ => []
  | fuel + 1, l =>
    if l.isEmpty then []
    else l.take (n + 1) :: chunksFuel n fuel (l.drop (n + 1))

/-- Split a list into chunks of `n + 1` elements (the successor argument
keeps the chunk size positive). -/
def chunksOf (n : Nat) (l : List Nat) : List (List Nat) :=
  chunksFuel n l.length l

/-- UTF-8 encoding of one character, as byte values. -/
def utf8Bytes (c : Char) : List Nat :=
  let n := c.toNat
  if n < 0x80 then [n]
  else if n < 0x800 then
    [0xC0 ||| (n >>> 6), 0x80 ||| (n &&& 0x3F)]
  else if n < 0x10000 then
    [0xE0 ||| (n >>> 12), 0x80 ||| ((n >>> 6) &&& 0x3F), 0x80 ||| (n &&& 0x3F)]
  else
    [0xF0 ||| (n >>> 18), 0x80 ||| ((n >>> 12) &&& 0x3F),
     0x80 ||| ((n >>> 6) &&& 0x3F), 0x80 ||| (n &&& 0x3F)]

/-- The bytes of a string (UTF-8). -/
def strBytes (s : String) : List Nat := s.data.flatMap utf8Bytes

/-- Big-endian 8-byte rendering of a number (the bit length field). -/
def be64 (n : Nat) : List Nat :=
  [n >>> 56 &&& 0xFF, n >>> 48 &&& 0xFF, n >>> 40 &&& 0xFF, n >>> 32 &&& 0xFF,
   n >>> 24 &&& 0xFF, n >>> 16 &&& 0xFF, n >>> 8 &&& 0xFF, n &&& 0xFF]

/-- SHA-256 padding: append `0x80`, zeros to 56 mod 64, then the bit length. -/
def pad (msg : List Nat) : List Nat :=
  let L := msg.length
  msg ++ 0x80 :: List.replicate ((119 - L % 64) % 64) 0 ++ be64 (8 * L)

/-- Big-endian 32-bit word from four bytes. -/
def word (bs : List Nat) : Nat :=
  bs.foldl (fun acc b => acc * 256 + b) 0

/-- The 64 SHA-256 round constants of FIPS 180-4, written in decimal. -/
def K : List Nat :=
  [1116352408, 1899447441, 3049323471, 3921009573, 961987163,
   1508970993, 2453635748, 2870763221, 3624381080, 310598401,
   607225278, 1426881987, 1925078388, 2162078206, 2614888103,
   3248222580, 3835390401, 4022224774, 264347078, 604807628,
   770255983, 1249150122, 1555081692, 1996064986, 2554220882,
   2821834349, 2952996808, 3210313671, 3336571891, 3584528711,
   113926993, 338241895, 666307205, 773529912, 1294757372,
   1396182291, 1695183700, 1986661051, 2177026350, 2456956037,
   2730485921, 2820302411, 3259730800, 3345764771, 3516065817,
   3600352804, 4094571909, 275423344, 430227734, 506948616,
   659060556, 883997877, 958139571, 1322822218, 1537002063,
   1747873779, 1955562222, 2024104815, 2227730452, 2361852424,
   2428436474, 2756734187, 3204031479, 3329325298]

/-- The initial SHA-256 hash state of FIPS 180-4, written in decimal. -/
def H0 : List Nat :=
  [1779033703, 3144134277, 1013904242, 2773480762,
   1359893119, 2600822924, 528734635, 1541459225]

/-- Append the next word of the message schedule. -/
def scheduleStep (ws : List Nat) : List Nat :=
  let n := ws.length
  let g (i : Nat) : Nat := ws.getD (n - i) 0
  let s0 := rotr (g 15) 7 ^^^ rotr (g 15) 18 ^^^ (g 15 >>> 3)
  let s1 := rotr (g 2) 17 ^^^ rotr (g 2) 19 ^^^ (g 2 >>> 10)
  ws ++ [mask32 (g 16 + s0 + g 7 + s1)]

/-- The 64-word message schedule of one 64-byte block. -/
def schedule (block : List Nat) : List Nat :=
  iterN scheduleStep 48 ((chunksOf 3 block).map word)

/-- One compression round, acting on the `[a, b, c, d, e, f, g, h]` state. -/
def round (st : List Nat) (kw : Nat × Nat) : List Nat :=
  match st with
  | [a, b, c, d, e, f, g, h] =>
    let S1 := rotr e 6 ^^^ rotr e 11 ^^^ rotr e 25
    let ch := (e &&& f) ^^^ (not32 e &&& g)
    let t1 := h + S1 + ch + kw.1 + kw.2
    let S0 := rotr a 2 ^^^ rotr a 13 ^^^ rotr a 22
    let mj := (a &&& b) ^^^ (a &&& c) ^^^ (b &&& c)
    let t2 := S0 + mj
    [mask32 (t1 + t2), a, b, c, mask32 (d + t1), e, f, g]
  | st => st

/-- Compress one 64-byte block into the running hash state. -/
def compress (hs : List Nat) (block : List Nat) : List Nat :=
  let out := (K.zip (schedule block)).foldl round hs
  (hs.zip out).map fun p => mask32 (p.1 + p.2)

/-- One hex digit character. -/
def hexDigit (n : Nat) : Char :=
  Char.ofNat (if n < 10 then 48 + n else 87 + n)

/-- Eight hex characters of a 32-bit word, most significant first. -/
def wordHex (w : Nat) : List Char :=
  [hexDigit (w >>> 28 &&& 0xF), hexDigit (w >>> 24 &&& 0xF),
   hexDigit (w >>> 20 &&& 0xF), hexDigit (w >>> 16 &&& 0xF),
   hexDigit (w >>> 12 &&& 0xF), hexDigit (w >>> 8 &&& 0xF),
   hexDigit (w >>> 4 &&& 0xF), hexDigit (w &&& 0xF)]

/-- SHA-256 digest of a byte list, as the 8 final 32-bit words. -/
def digestWords (msg : List Nat) : List Nat :=
  (chunksOf 63 (pad msg)).foldl compress H0

end Sha256

/-- `hashlib.sha256(s).hexdigest()`: the 64-hex-character SHA-256 digest of
the bytes of a string. -/
def sha256hex (s : String) : String :=
  String.mk ((Sha256.digestWords (Sha256.strBytes s)).flatMap Sha256.wordHex)

/-- A persisted `DatastoreCacheItem` record.  `id` is the datastore entity
identity (assigned on first put), `cache_key` the `StringProperty`,
`pickled_value` the `BlobProperty` bytes, `expire_at` the
`DateTimeProperty` as epoch seconds. -/
structure Item where
  id : Nat
  cache_key : String
  pickled_value : List Nat
  expire_at : Int
  deriving DecidableEq, Repr

/-- The datastore: the stored records in insertion order, plus the next
fresh entity identity. -/
structure Store where
  items : List Item
  nextId : Nat
  deriving DecidableEq, Repr

/-- The `DatastoreCacheItem.all().filter(...).get()` query: the first stored
record whose `cache_key` equals `k`, if any. -/
def Store.find (st : Store) (k : String) : Option Item :=
  st.items.find? fun it => it.cache_key == k

/-- `item.delete()`: remove the record carrying the entity identity of `item`. -/
def Store.del (st : Store) (it : Item) : Store :=
  { st with items := st.items.filter fun j => j.id != it.id }

/-- `item.put()` on an already-persisted entity: overwrite the record with
the same identity in place. -/
def Store.putExisting (st : Store) (it : Item) : Store :=
  { st with items := st.items.map fun j => if j.id == it.id then it else j }

/-- `item.put()` on a fresh entity: assign the next identity and append. -/
def Store.putNew (st : Store) (it : Item) : Store :=
  { items := st.items ++ [it], nextId := st.nextId + 1 }

namespace DatastoreCache

/-- `datetime.datetime(year=datetime.MAXYEAR, month=12, day=31)` as epoch
seconds: the far-future sentinel meaning "never expires". -/
def maxSentinel : Int := 253402214400

/-- 31 days in seconds: the threshold between relative and absolute times. -/
def monthSeconds : Int := 2678400

/-- `DatastoreCache._parse_key`: a string is returned unchanged; a tuple of
length ≥ 2 is replaced by its second element first; anything that is not a
string at that point raises `TypeError`. -/
def parse_key (key : PyVal) : Except String String :=
  let key :=
    match key with
    | .vtuple xs =>
      if h : 2 ≤ xs.length then xs.get ⟨1, by omega⟩ else .vtuple xs
    | k => k
  match key with
  | .vstr s => .ok s
  | _ => .error "TypeError: Key must be a string or a tuple with the key as second item"

/-- `DatastoreCache._parse_time` with `datetime.datetime.now()` injected as
`now`: `0` maps to the sentinel, values `≤ 2678400` to `now + value`, larger
values to the absolute epoch timestamp; non-numbers raise `TypeError`. -/
def parse_time (now : Int) (t : PyVal) : Except String Int :=
  match t with
  | .vnum n =>
    .ok (if n = 0 then maxSentinel else if n ≤ monthSeconds then now + n else n)
  | _ => .error "TypeError: Time must either be a relative number of seconds from current time (up to 1 month), or an absolute Unix epoch time"

/-- `DatastoreCache._get_key_name`: parse the key, prepend the namespace
(the namespace defaulting to the empty string), and if the concatenation
exceeds 250 characters use the
namespace followed by the SHA-256 hex digest of the parsed key instead. -/
def get_key_name (key : PyVal) (ns : Option String) : Except String String :=
  (parse_key key).map fun k =>
    let key_name := ns.getD "" ++ k
    if key_name.length > 250 then ns.getD "" ++ sha256hex k
    else key_name

/-- `DatastoreCache._get_item` with `now` injected: look up the first record
with the normalized key; return it when `expire_at ≥ now`, otherwise report
`none`, deleting the expired record when `delete_expired` is set.  (The
in-lookup delete of the expired record is modelled as succeeding; its failure
would raise out of the whole operation.) -/
def get_item (now : Int) (st : Store) (key : PyVal) (ns : Option String)
    (delete_expired : Bool) : Except String (Option Item × Store) :=
  (get_key_name key ns).map fun key_name =>
    match st.find key_name with
    | some item =>
      if item.expire_at ≥ now then (some item, st)
      else if delete_expired then (none, st.del item)
      else (none, st)
    | none => (none, st)

section Ops

variable {V : Type} (ser : V → List Nat) (deser : List Nat → V)

/-- `DatastoreCache.set` with `now` injected and the outcome of `item.put()`
given as `putOk` (the `try`/`except` around the put turns a failure into a
`False` return): overwrite the valid record for the key if one exists,
otherwise create a fresh record; store the serialized value and the parsed
expiry. -/
def set (now : Int) (putOk : Bool) (st : Store) (key : PyVal) (value : V)
    (t : PyVal) (ns : Option String) : Except String (Bool × Store) := do
  let key_name ← get_key_name key ns
  let expire ← parse_time now t
  let (old?, st) ← get_item now st key ns true
  match old? with
  | some old =>
    let item := { old with expire_at := expire, pickled_value := ser value }
    if putOk then pure (true, st.putExisting item) else pure (false, st)
  | none =>
    let item : Item := ⟨st.nextId, key_name, ser value, expire⟩
    if putOk then pure (true, st.putNew item) else pure (false, st)

/-- `DatastoreCache.get`: look up via `get_item` and deserialize the payload
of a found record; `none` models the Python `None` return on a miss. -/
def get (now : Int) (st : Store) (key : PyVal) (ns : Option String)
    (delete_expired : Bool) : Except String (Option V × Store) :=
  (get_item now st key ns delete_expired).map fun (it?, st) =>
    match it? with
    | some it => (some (deser it.pickled_value), st)
    | none => (none, st)

/-- `DatastoreCache.delete` with the outcome of the `item.delete()` call on
the found item given as `deleteOk`: `1` when no valid item exists, `0` when
the delete fails, `2` when it succeeds.  The `seconds` parameter is accepted
and ignored, as in the source. -/
def delete (now : Int) (deleteOk : Bool) (st : Store) (key : PyVal)
    (seconds : Int) (ns : Option String) : Except String (Nat × Store) :=
  (get_item now st key ns true).map fun (it?, st) =>
    match it? with
    | some it => if deleteOk then (2, st.del it) else (0, st)
    | none => (1, st)

/-- `DatastoreCache.add`: delegate to `set` only when no valid item exists. -/
def add (now : Int) (putOk : Bool) (st : Store) (key : PyVal) (value : V)
    (t : PyVal) (ns : Option String) : Except String (Bool × Store) := do
  let (it?, st) ← get_item now st key ns true
  match it? with
  | none => set ser now putOk st key value t ns
  | some _ => pure (false, st)

/-- `DatastoreCache.replace`: delegate to `set` only when a valid item
exists. -/
def replace (now : Int) (putOk : Bool) (st : Store) (key : PyVal) (value : V)
    (t : PyVal) (ns : Option String) : Except String (Bool × Store) := do
  let (it?, st) ← get_item now st key ns true
  match it? with
  | some _ => set ser now putOk st key value t ns
  | none => pure (false, st)

end Ops

/-- `DatastoreCache.flush_all` with the outcome of the bulk
`db.delete(...)` given as `dbDeleteOk`: raise `ValueError` when `max_items`
is outside `[1, 1000]`; otherwise bulk-delete the first `max_items` fetched
records and succeed only when nothing is left. -/
def flush_all (dbDeleteOk : Bool) (st : Store) (max_items : Int) :
    Except String (Bool × Store) :=
  if max_items < 1 ∨ max_items > 1000 then
    .error "ValueError: Parameter max_items must be between 0 and 1000"
  else if dbDeleteOk then
    let fetched := st.items.take max_items.toNat
    let st' : Store :=
      { st with items := st.items.filter fun j => !(fetched.any fun f => f.id == j.id) }
    .ok (if st'.items.take 1 ≠ [] then false else true, st')
  else
    .ok (false, st)

end DatastoreCache

/-! ### Sanity checks of the SHA-256 embedding against published digests -/

set_option maxRecDepth 100000

/-- FIPS 180 test vector: the digest of `"abc"`. -/
theorem sha256hex_abc :
    sha256hex "abc" =
      "ba7816bf8f01cfea414140de5dae2223b00361a396177a9cb410ff61f20015ad" := by
  rfl

/-- The digest of 300 letter-a characters (an over-long cache key, as in the
tests of the repository), cross-checked against a reference implementation. -/
theorem sha256hex_a300 :
    sha256hex (String.mk (List.replicate 300 'a')) =
      "9835fa6bf4e20a9b9ea812506302e98982721a6cf8d2cae67af57129bf21ae90" := by
  rfl

/-! ### The digest always has 64 hex characters -/

namespace Sha256

theorem round_length (st : List Nat) (kw : Nat × Nat) :
    (round st kw).length = st.length := by
  unfold round
  split <;> simp

theorem foldl_round_length (kws : List (Nat × Nat)) (hs : List Nat) :
    (kws.foldl round hs).length = hs.length := by
  induction kws generalizing hs with
  | nil => rfl
  | cons kw kws ih => rw [List.foldl_cons, ih, round_length]

theorem compress_length (hs block : List Nat) :
    (compress hs block).length = hs.length := by
  unfold compress
  rw [List.length_map, List.length_zip, foldl_round_length]
  omega

theorem foldl_compress_length (blocks : List (List Nat)) (hs : List Nat) :
    (blocks.foldl compress hs).length = hs.length := by
  induction blocks generalizing hs with
  | nil => rfl
  | cons b bs ih => rw [List.foldl_cons, ih, compress_length]

theorem digestWords_length (msg : List Nat) : (digestWords msg).length = 8 := by
  unfold digestWords
  rw [foldl_compress_length]
  rfl

theorem wordHex_length (w : Nat) : (wordHex w).length = 8 := rfl

theorem flatMap_wordHex_length (ws : List Nat) :
    (ws.flatMap wordHex).length = 8 * ws.length := by
  induction ws with
  | nil => rfl
  | cons w ws ih =>
    rw [List.flatMap_cons, List.length_append, ih, wordHex_length,
      List.length_cons]
    ring

end Sha256

theorem length_mk (l : List Char) : (String.mk l).length = l.length := rfl

theorem sha256hex_length (s : String) : (sha256hex s).length = 64 := by
  rw [sha256hex, length_mk, Sha256.flatMap_wordHex_length,
    Sha256.digestWords_length]

/-! ### Lookup and store lemmas -/

namespace DatastoreCache

theorem get_item_found (now : Int) (st : Store) (key : PyVal)
    (ns : Option String) (de : Bool) (kn : String) (it : Item)
    (hkn : get_key_name key ns = .ok kn)
    (hfind : st.find kn = some it) (hvalid : now ≤ it.expire_at) :
    get_item now st key ns de = .ok (some it, st) := by
  simp only [get_item, hkn, Except.map, hfind, ge_iff_le, if_pos hvalid]

theorem get_item_expired (now : Int) (st : Store) (key : PyVal)
    (ns : Option String) (de : Bool) (kn : String) (it : Item)
    (hkn : get_key_name key ns = .ok kn)
    (hfind : st.find kn = some it) (hexp : it.expire_at < now) :
    get_item now st key ns de = .ok (none, if de then st.del it else st) := by
  simp only [get_item, hkn, Except.map, hfind, ge_iff_le, if_neg (not_le.mpr hexp)]
  cases de <;> rfl

theorem get_item_missing (now : Int) (st : Store) (key : PyVal)
    (ns : Option String) (de : Bool) (kn : String)
    (hkn : get_key_name key ns = .ok kn) (hfind : st.find kn = none) :
    get_item now st key ns de = .ok (none, st) := by
  simp only [get_item, hkn, Except.map, hfind]

theorem find?_map_replace (p : Item → Bool) (l : List Item) (a b : Item)
    (ha : l.find? p = some a) (hb : p b = true) :
    (l.map fun j => if j.id == a.id then b else j).find? p = some b := by
  induction l with
  | nil => simp at ha
  | cons x xs ih =>
    by_cases hpx : p x = true
    · rw [List.find?_cons_of_pos _ hpx] at ha
      obtain rfl : x = a := by simpa using ha
      simp only [List.map_cons, BEq.refl, if_pos rfl]
      exact List.find?_cons_of_pos _ hb
    · rw [List.find?_cons_of_neg _ hpx] at ha
      simp only [List.map_cons]
      by_cases hid : (x.id == a.id) = true
      · rw [if_pos hid]
        exact List.find?_cons_of_pos _ hb
      · rw [if_neg hid, List.find?_cons_of_neg _ hpx]
        exact ih ha

theorem find?_filter_ne (p : Item → Bool) (l : List Item) (a : Item)
    (h : ∀ x ∈ l, p x = true → x.id = a.id) :
    (l.filter fun j => j.id != a.id).find? p = none := by
  rw [List.find?_eq_none]
  intro x hx
  rw [List.mem_filter] at hx
  intro hpx
  have := h x hx.1 hpx
  simp [this] at hx

theorem cache_key_unique (l : List Item)
    (hck : (l.map Item.cache_key).Nodup) (a : Item) (ha : a ∈ l) :
    ∀ x ∈ l, x.cache_key = a.cache_key → x = a := by
  intro x hx hkey
  exact List.inj_on_of_nodup_map hck hx ha hkey

theorem find_putNew (st : Store) (b : Item) (kn : String)
    (hnone : st.find kn = none) (hb : b.cache_key = kn) :
    (st.putNew b).find kn = some b := by
  unfold Store.find Store.putNew at *
  rw [List.find?_append, hnone]
  simp [hb]

section OpLemmas

variable {V : Type} (ser : V → List Nat) (deser : List Nat → V)

theorem set_eq_of_valid (now : Int) (st st1 : Store) (key : PyVal)
    (ns : Option String) (kn : String) (e : Int) (t : PyVal) (old : Item)
    (v : V) (hkn : get_key_name key ns = .ok kn)
    (hti : parse_time now t = .ok e)
    (hgi : get_item now st key ns true = .ok (some old, st1)) :
    set ser now true st key v t ns =
      .ok (true, st1.putExisting
        { old with expire_at := e, pickled_value := ser v }) := by
  simp only [DatastoreCache.set, hkn, hti, hgi]
  rfl

theorem set_eq_of_missing (now : Int) (st st1 : Store) (key : PyVal)
    (ns : Option String) (kn : String) (e : Int) (t : PyVal) (v : V)
    (hkn : get_key_name key ns = .ok kn)
    (hti : parse_time now t = .ok e)
    (hgi : get_item now st key ns true = .ok (none, st1)) :
    set ser now true st key v t ns =
      .ok (true, st1.putNew ⟨st1.nextId, kn, ser v, e⟩) := by
  simp only [DatastoreCache.set, hkn, hti, hgi]
  rfl

theorem get_eq_of_found (now : Int) (st st2 : Store) (key : PyVal)
    (ns : Option String) (de : Bool) (it : Item)
    (hgi : get_item now st key ns de = .ok (some it, st2)) :
    get deser now st key ns de = .ok (some (deser it.pickled_value), st2) := by
  simp only [get, hgi, Except.map]

theorem get_eq_of_miss (now : Int) (st st2 : Store) (key : PyVal)
    (ns : Option String) (de : Bool)
    (hgi : get_item now st key ns de = .ok (none, st2)) :
    get deser now st key ns de = .ok (none, st2) := by
  simp only [get, hgi, Except.map]

theorem add_eq_of_found (now : Int) (putOk : Bool) (st st1 : Store)
    (key : PyVal) (ns : Option String) (it : Item) (v : V) (t : PyVal)
    (hgi : get_item now st key ns true = .ok (some it, st1)) :
    add ser now putOk st key v t ns = .ok (false, st1) := by
  simp only [add, hgi]
  rfl

theorem add_eq_of_missing (now : Int) (putOk : Bool) (st st1 : Store)
    (key : PyVal) (ns : Option String) (v : V) (t : PyVal)
    (hgi : get_item now st key ns true = .ok (none, st1)) :
    add ser now putOk st key v t ns = set ser now putOk st1 key v t ns := by
  simp only [add, hgi]
  rfl

theorem replace_eq_of_found (now : Int) (putOk : Bool) (st st1 : Store)
    (key : PyVal) (ns : Option String) (it : Item) (v : V) (t : PyVal)
    (hgi : get_item now st key ns true = .ok (some it, st1)) :
    replace ser now putOk st key v t ns = set ser now putOk st1 key v t ns := by
  simp only [replace, hgi]
  rfl

theorem replace_eq_of_missing (now : Int) (putOk : Bool) (st st1 : Store)
    (key : PyVal) (ns : Option String) (v : V) (t : PyVal)
    (hgi : get_item now st key ns true = .ok (none, st1)) :
    replace ser now putOk st key v t ns = .ok (false, st1) := by
  simp only [replace, hgi]
  rfl

theorem find_cache_key (st : Store) (kn : String) (it : Item)
    (h : st.find kn = some it) : it.cache_key = kn := by
  unfold Store.find at h
  have hp := List.find?_some h
  simpa using hp

theorem find_mem (st : Store) (kn : String) (it : Item)
    (h : st.find kn = some it) : it ∈ st.items := by
  unfold Store.find at h
  exact List.mem_of_find?_eq_some h

theorem set_eq_of_bad_key (now : Int) (putOk : Bool) (st : Store) (key : PyVal)
    (ns : Option String) (msg : String) (v : V) (t : PyVal)
    (hkey : get_key_name key ns = .error msg) :
    set ser now putOk st key v t ns = .error msg := by
  simp only [DatastoreCache.set, hkey]
  rfl

/-- Main round-trip lemma: a successful `set` (with working persistence and a
ttl that has not passed at read time) is observed by an immediate `get` with
the value that was stored, provided the store held at most one record per
cache key. -/
theorem set_then_get (hinv : ∀ v, deser (ser v) = v)
    (now : Int) (st : Store) (key : PyVal) (v : V) (t : PyVal)
    (ns : Option String) (e : Int) (b : Bool) (st' : Store)
    (hck : (st.items.map Item.cache_key).Nodup)
    (hti : parse_time now t = .ok e) (hnow : now ≤ e)
    (hset : set ser now true st key v t ns = .ok (b, st')) :
    b = true ∧ get deser now st' key ns true = .ok (some v, st') := by
  cases hkey : get_key_name key ns with
  | error msg =>
    rw [set_eq_of_bad_key ser now true st key ns msg v t hkey] at hset
    exact absurd hset (by simp)
  | ok kn =>
  cases hfind : st.find kn with
  | some old =>
    rcases le_or_lt now old.expire_at with hv | hx
    · -- a valid record is overwritten in place
      have hgi := get_item_found now st key ns true kn old hkey hfind hv
      rw [set_eq_of_valid ser now st st key ns kn e t old v hkey hti hgi] at hset
      injection hset with h
      injection h with hb hst
      subst hb hst
      refine ⟨rfl, ?_⟩
      set item : Item := { old with expire_at := e, pickled_value := ser v } with hitem
      have hfind' : (st.putExisting item).find kn = some item := by
        unfold Store.find Store.putExisting
        exact find?_map_replace _ st.items old item hfind
          (by rw [hitem]; exact beq_iff_eq.mpr (find_cache_key st kn old hfind))
      have hgi' := get_item_found now (st.putExisting item) key ns true kn item
        hkey hfind' hnow
      rw [get_eq_of_found deser now (st.putExisting item) (st.putExisting item)
        key ns true item hgi', hitem]
      simp [hinv]
    · -- an expired record is lazily deleted, then a fresh record is created
      have hgi : get_item now st key ns true = .ok (none, st.del old) := by
        simpa using get_item_expired now st key ns true kn old hkey hfind hx
      rw [set_eq_of_missing ser now st (st.del old) key ns kn e t v hkey hti hgi]
        at hset
      injection hset with h
      injection h with hb hst
      subst hb hst
      refine ⟨rfl, ?_⟩
      set item : Item := ⟨(st.del old).nextId, kn, ser v, e⟩ with hitem
      have hnone : (st.del old).find kn = none := by
        unfold Store.find Store.del
        refine find?_filter_ne _ st.items old ?_
        intro x hxmem hpx
        have hx' : x.cache_key = old.cache_key := by
          rw [beq_iff_eq.mp hpx, find_cache_key st kn old hfind]
        rw [cache_key_unique st.items hck old (find_mem st kn old hfind) x hxmem hx']
      have hfind' := find_putNew (st.del old) item kn hnone rfl
      have hgi' := get_item_found now ((st.del old).putNew item) key ns true kn
        item hkey hfind' hnow
      rw [get_eq_of_found deser now ((st.del old).putNew item)
        ((st.del old).putNew item) key ns true item hgi', hitem]
      simp [hinv]
  | none =>
    have hgi := get_item_missing now st key ns true kn hkey hfind
    rw [set_eq_of_missing ser now st st key ns kn e t v hkey hti hgi] at hset
    injection hset with h
    injection h with hb hst
    subst hb hst
    refine ⟨rfl, ?_⟩
    set item : Item := ⟨st.nextId, kn, ser v, e⟩ with hitem
    have hfind' := find_putNew st item kn hfind rfl
    have hgi' := get_item_found now (st.putNew item) key ns true kn item hkey
      hfind' hnow
    rw [get_eq_of_found deser now (st.putNew item) (st.putNew item) key ns true
      item hgi', hitem]
    simp [hinv]

theorem get_item_ok (now : Int) (st : Store) (key : PyVal) (ns : Option String)
    (de : Bool) (kn : String) (hkn : get_key_name key ns = .ok kn) :
    ∃ r, get_item now st key ns de = .ok r := by
  cases hfind : st.find kn with
  | none => exact ⟨_, get_item_missing now st key ns de kn hkn hfind⟩
  | some a =>
    rcases le_or_lt now a.expire_at with hv | hx
    · exact ⟨_, get_item_found now st key ns de kn a hkn hfind hv⟩
    · exact ⟨_, get_item_expired now st key ns de kn a hkn hfind hx⟩

theorem get_key_name_ok_of_get_item (now : Int) (st : Store) (key : PyVal)
    (ns : Option String) (de : Bool) (r : Option Item × Store)
    (h : get_item now st key ns de = .ok r) :
    ∃ kn, get_key_name key ns = .ok kn := by
  cases hk : get_key_name key ns with
  | error msg => simp [get_item, hk, Except.map] at h
  | ok kn => exact ⟨kn, rfl⟩

theorem get_item_store_shrinks (now : Int) (st st1 : Store) (key : PyVal)
    (ns : Option String) (de : Bool) (it? : Option Item)
    (hgi : get_item now st key ns de = .ok (it?, st1)) :
    (∀ j ∈ st1.items, j ∈ st.items) ∧ st1.items.length ≤ st.items.length := by
  obtain ⟨kn, hkn⟩ := get_key_name_ok_of_get_item now st key ns de _ hgi
  cases hfind : st.find kn with
  | none =>
    rw [get_item_missing now st key ns de kn hkn hfind] at hgi
    obtain ⟨-, rfl⟩ : none = it? ∧ st = st1 := by simpa using hgi
    exact ⟨fun j hj => hj, le_rfl⟩
  | some a =>
    rcases le_or_lt now a.expire_at with hv | hx
    · rw [get_item_found now st key ns de kn a hkn hfind hv] at hgi
      obtain ⟨-, rfl⟩ : some a = it? ∧ st = st1 := by simpa using hgi
      exact ⟨fun j hj => hj, le_rfl⟩
    · rw [get_item_expired now st key ns de kn a hkn hfind hx] at hgi
      cases de with
      | false =>
        obtain ⟨-, rfl⟩ : none = it? ∧ st = st1 := by simpa using hgi
        exact ⟨fun j hj => hj, le_rfl⟩
      | true =>
        obtain ⟨-, rfl⟩ : none = it? ∧ st.del a = st1 := by simpa using hgi
        refine ⟨fun j hj => ?_, ?_⟩
        · exact (List.mem_filter.mp hj).1
        · exact List.length_filter_le _ st.items

theorem set_ok (now : Int) (st : Store) (key : PyVal) (ns : Option String)
    (kn : String) (e : Int) (v : V) (t : PyVal)
    (hkn : get_key_name key ns = .ok kn) (hti : parse_time now t = .ok e) :
    ∃ st2, set ser now true st key v t ns = .ok (true, st2) := by
  obtain ⟨⟨it?, st1⟩, hgi⟩ := get_item_ok now st key ns true kn hkn
  cases it? with
  | some old =>
    exact ⟨_, set_eq_of_valid ser now st st1 key ns kn e t old v hkn hti hgi⟩
  | none =>
    exact ⟨_, set_eq_of_missing ser now st st1 key ns kn e t v hkn hti hgi⟩

end OpLemmas

end DatastoreCache

open DatastoreCache

/-! ### Claims -/

/-- Claim C1: for every key and namespace, the internal lookup returns an
entry iff a record with the normalized storage key exists and its expiration
timestamp is not earlier than the current time (expired iff
`expire_at < now`); when the record exists but is expired, the lookup reports
not-found, deleting the record from the store if `delete_expired` is true and
leaving it in place if `delete_expired` is false. -/
theorem C1_lookup_spec (now : Int) (st : Store) (key : PyVal)
    (ns : Option String) (de : Bool) (kn : String)
    (hkn : get_key_name key ns = .ok kn) :
    (∀ it : Item, get_item now st key ns de = .ok (some it, st) ↔
      st.find kn = some it ∧ now ≤ it.expire_at) ∧
    (∀ it : Item, st.find kn = some it → it.expire_at < now →
      get_item now st key ns de = .ok (none, if de then st.del it else st)) ∧
    (st.find kn = none → get_item now st key ns de = .ok (none, st)) := by
  refine ⟨?_, ?_, ?_⟩
  · intro it
    cases hfind : st.find kn with
    | none =>
      rw [get_item_missing now st key ns de kn hkn hfind]
      simp
    | some a =>
      rcases le_or_lt now a.expire_at with hv | hx
      · rw [get_item_found now st key ns de kn a hkn hfind hv]
        constructor
        · intro h
          obtain rfl : a = it := by simpa using h
          exact ⟨rfl, hv⟩
        · rintro ⟨h1, _⟩
          obtain rfl := Option.some.inj h1
          rfl
      · rw [get_item_expired now st key ns de kn a hkn hfind hx]
        constructor
        · intro h
          exact absurd h (by cases de <;> simp)
        · rintro ⟨h1, h2⟩
          obtain rfl := Option.some.inj h1
          exact absurd h2 (not_le.mpr hx)
  · intro it hfind hx
    exact get_item_expired now st key ns de kn it hkn hfind hx
  · intro h
    exact get_item_missing now st key ns de kn hkn h

/-- Witness for C1: on a store holding one record with key `"nsk"` already
expired at time 100, the lookup with deletion reports not-found and leaves
the store empty. -/
theorem C1_lookup_spec_witness :
    get_item 100 ⟨[⟨0, "nsk", [7], 42⟩], 1⟩ (.vstr "k") (some "ns") true =
      .ok (none, ⟨[], 1⟩) := by
  have h := (C1_lookup_spec 100 ⟨[⟨0, "nsk", [7], 42⟩], 1⟩ (.vstr "k")
    (some "ns") true "nsk" rfl).2.1 ⟨0, "nsk", [7], 42⟩ rfl (by norm_num)
  simpa using h

/-- Claim C2: time normalization maps 0 to the sentinel far-future timestamp,
every numeric `t` with `0 < t ≤ 2678400` to the relative timestamp
`now + t`, every numeric `t > 2678400` to the absolute epoch timestamp `t`,
and every negative numeric value through the relative-offset branch,
producing a past timestamp; non-numeric input raises the invalid-time
error. -/
theorem C2_parse_time_spec (now : Int) :
    parse_time now (.vnum 0) = .ok maxSentinel ∧
    (∀ t : Int, 0 < t → t ≤ 2678400 →
      parse_time now (.vnum t) = .ok (now + t)) ∧
    (∀ t : Int, 2678400 < t → parse_time now (.vnum t) = .ok t) ∧
    (∀ t : Int, t < 0 →
      parse_time now (.vnum t) = .ok (now + t) ∧ now + t < now) ∧
    (∀ v : PyVal, (∀ n : Int, v ≠ .vnum n) →
      ∃ msg, parse_time now v = .error msg) := by
  refine ⟨rfl, ?_, ?_, ?_, ?_⟩
  · intro t h0 hm
    simp only [parse_time, monthSeconds]
    rw [if_neg (by omega), if_pos hm]
  · intro t hm
    simp only [parse_time, monthSeconds]
    rw [if_neg (by omega), if_neg (by omega)]
  · intro t hneg
    refine ⟨?_, by omega⟩
    simp only [parse_time, monthSeconds]
    rw [if_neg (by omega), if_pos (by omega)]
  · intro v hv
    cases v with
    | vnum n => exact absurd rfl (hv n)
    | vstr s => exact ⟨_, rfl⟩
    | vtuple xs => exact ⟨_, rfl⟩
    | vlist xs => exact ⟨_, rfl⟩
    | vnone => exact ⟨_, rfl⟩

/-- Witness for C2 at time 1000: each branch of the normalization evaluated
at a concrete input (`0`, one minute, a large epoch value, `-5`, and a
string). -/
theorem C2_parse_time_spec_witness :
    parse_time 1000 (.vnum 0) = .ok maxSentinel ∧
    parse_time 1000 (.vnum 60) = .ok (1000 + 60) ∧
    parse_time 1000 (.vnum 999999999) = .ok 999999999 ∧
    (parse_time 1000 (.vnum (-5)) = .ok (1000 + -5) ∧ (1000 : Int) + -5 < 1000) ∧
    (∃ msg, parse_time 1000 (.vstr "1033523") = .error msg) :=
  ⟨(C2_parse_time_spec 1000).1,
   (C2_parse_time_spec 1000).2.1 60 (by norm_num) (by norm_num),
   (C2_parse_time_spec 1000).2.2.1 999999999 (by norm_num),
   (C2_parse_time_spec 1000).2.2.2.1 (-5) (by norm_num),
   (C2_parse_time_spec 1000).2.2.2.2 (.vstr "1033523")
     (fun n h => by cases h)⟩

/-- Claim C3: for every logical key and namespace, the storage key equals the
concatenation `namespace ++ key` exactly when the length of the concatenation
is at most 250 characters, and otherwise equals the namespace followed by the
64-hex-character SHA-256 digest of the raw key alone (the namespace is never
included in the hash input). -/
theorem C3_key_name_spec (key : PyVal) (ns : Option String) (s : String)
    (hk : parse_key key = .ok s) :
    ((ns.getD "" ++ s).length ≤ 250 →
      get_key_name key ns = .ok (ns.getD "" ++ s)) ∧
    (250 < (ns.getD "" ++ s).length →
      get_key_name key ns = .ok (ns.getD "" ++ sha256hex s)) ∧
    (sha256hex s).length = 64 := by
  refine ⟨?_, ?_, sha256hex_length s⟩
  · intro hle
    simp only [get_key_name, hk, Except.map]
    rw [if_neg (by omega)]
  · intro hgt
    simp only [get_key_name, hk, Except.map]
    rw [if_pos (by omega)]

/-- Witness for C3: a short key is stored under the plain concatenation, a
300-character key under the namespace plus its digest. -/
theorem C3_key_name_spec_witness :
    get_key_name (.vstr "whatever") (some "prefix") =
      .ok ("prefix" ++ "whatever") ∧
    get_key_name (.vstr (String.mk (List.replicate 300 'a'))) none =
      .ok ("" ++ sha256hex (String.mk (List.replicate 300 'a'))) :=
  ⟨(C3_key_name_spec (.vstr "whatever") (some "prefix") "whatever" rfl).1
     (by decide),
   (C3_key_name_spec (.vstr (String.mk (List.replicate 300 'a'))) none
     (String.mk (List.replicate 300 'a')) rfl).2.1 (by decide)⟩

/-- Counterexample to claim C4 as stated: a Python list is a 2-element
ordered sequence whose second element is a string, yet key parsing rejects
it (the source accepts tuples only; the tests in the repository assert the
same rejection for lists). -/
theorem C4_counterexample :
    parse_key (.vlist [.vstr "a", .vstr "b"]) =
      .error "TypeError: Key must be a string or a tuple with the key as second item" ∧
    parse_key (.vlist [.vstr "a", .vstr "b"]) ≠ .ok "b" := by
  refine ⟨rfl, fun h => ?_⟩
  exact Except.noConfusion h

/-- Claim C4 (amended: "ordered sequence" narrowed to "tuple"): key parsing
accepts a plain string (returned unchanged) and any tuple of 2 or more
elements whose second element is a string (that second element is returned,
all other elements ignored); every other key shape — including lists —
raises the invalid-key error. -/
theorem C4_parse_key_spec :
    (∀ s : String, parse_key (.vstr s) = .ok s) ∧
    (∀ (xs : List PyVal) (s : String) (h : 2 ≤ xs.length),
      xs.get ⟨1, by omega⟩ = .vstr s → parse_key (.vtuple xs) = .ok s) ∧
    (∀ (xs : List PyVal) (h : 2 ≤ xs.length),
      (∀ s : String, xs.get ⟨1, by omega⟩ ≠ .vstr s) →
      ∃ msg, parse_key (.vtuple xs) = .error msg) ∧
    (∀ xs : List PyVal, xs.length < 2 →
      ∃ msg, parse_key (.vtuple xs) = .error msg) ∧
    (∀ v : PyVal, (∀ s : String, v ≠ .vstr s) → (∀ xs, v ≠ .vtuple xs) →
      ∃ msg, parse_key v = .error msg) := by
  refine ⟨fun s => rfl, ?_, ?_, ?_, ?_⟩
  · intro xs s h hget
    simp only [parse_key, dif_pos h, hget]
  · intro xs h hget
    simp only [parse_key, dif_pos h]
    cases hx : xs.get ⟨1, by omega⟩ with
    | vstr s => exact absurd hx (hget s)
    | vnum n => exact ⟨_, rfl⟩
    | vtuple ys => exact ⟨_, rfl⟩
    | vlist ys => exact ⟨_, rfl⟩
    | vnone => exact ⟨_, rfl⟩
  · intro xs h
    have hn : ¬ 2 ≤ xs.length := by omega
    simp only [parse_key, dif_neg hn]
    exact ⟨_, rfl⟩
  · intro v hs ht
    cases v with
    | vstr s => exact absurd rfl (hs s)
    | vtuple xs => exact absurd rfl (ht xs)
    | vnum n => exact ⟨_, rfl⟩
    | vlist xs => exact ⟨_, rfl⟩
    | vnone => exact ⟨_, rfl⟩

/-- Claim C5: for every key, namespace and serializable value, a successful
`set(k, v)` (default ttl) followed immediately by `get(k)` in the same
namespace returns `v` unchanged, assuming the serialize/deserialize
collaborator is mutually inverse, the current time precedes the far-future
sentinel, and the store satisfies the one-record-per-storage-key
invariant. -/
theorem C5_set_get_roundtrip {V : Type} (ser : V → List Nat)
    (deser : List Nat → V) (hinv : ∀ w, deser (ser w) = w)
    (now : Int) (st : Store) (key : PyVal) (v : V) (ns : Option String)
    (b : Bool) (st' : Store) (hnow : now ≤ maxSentinel)
    (hck : (st.items.map Item.cache_key).Nodup)
    (hset : DatastoreCache.set ser now true st key v (.vnum 0) ns =
      .ok (b, st')) :
    b = true ∧
    DatastoreCache.get deser now st' key ns true = .ok (some v, st') :=
  set_then_get ser deser hinv now st key v (.vnum 0) ns maxSentinel b st'
    hck rfl hnow hset

/-- Witness for C5: storing a German umlaut string on an empty store under a
namespace and reading it back, with list-of-code-points serialization. -/
theorem C5_set_get_roundtrip_witness :
    true = true ∧
    DatastoreCache.get (fun l => String.mk (l.map Char.ofNat)) 1000
      ⟨[⟨0, "prefixmykey",
          "what about german characters like ä ü ö and ß?".data.map Char.toNat,
          maxSentinel⟩], 1⟩
      (.vstr "mykey") (some "prefix") true =
      .ok (some "what about german characters like ä ü ö and ß?",
        ⟨[⟨0, "prefixmykey",
            "what about german characters like ä ü ö and ß?".data.map Char.toNat,
            maxSentinel⟩], 1⟩) :=
  C5_set_get_roundtrip (fun s : String => s.data.map Char.toNat)
    (fun l => String.mk (l.map Char.ofNat))
    (fun w => by simp [List.map_map, Function.comp_def, Char.ofNat_toNat])
    1000 ⟨[], 0⟩ (.vstr "mykey")
    "what about german characters like ä ü ö and ß?" (some "prefix") true
    ⟨[⟨0, "prefixmykey",
        "what about german characters like ä ü ö and ß?".data.map Char.toNat,
        maxSentinel⟩], 1⟩
    (by decide) (by simp) rfl

/-- Claim C6: `add` succeeds (delegating to `set`) iff no valid (unexpired)
entry currently exists for the key; when a valid entry exists it returns
false, the store is unchanged, and a subsequent `get` still yields the
original value. -/
theorem C6_add_spec {V : Type} (ser : V → List Nat) (deser : List Nat → V)
    (now : Int) (putOk : Bool) (st : Store) (key : PyVal) (v : V) (t : PyVal)
    (ns : Option String) :
    (∀ it : Item, get_item now st key ns true = .ok (some it, st) →
      DatastoreCache.add ser now putOk st key v t ns = .ok (false, st) ∧
      DatastoreCache.get deser now st key ns true =
        .ok (some (deser it.pickled_value), st)) ∧
    (∀ st1, get_item now st key ns true = .ok (none, st1) →
      DatastoreCache.add ser now putOk st key v t ns =
        DatastoreCache.set ser now putOk st1 key v t ns) ∧
    (∀ st1 e, get_item now st key ns true = .ok (none, st1) →
      parse_time now t = .ok e →
      ∃ st2, DatastoreCache.add ser now true st key v t ns = .ok (true, st2)) := by
  refine ⟨?_, ?_, ?_⟩
  · intro it hgi
    exact ⟨add_eq_of_found ser now putOk st st key ns it v t hgi,
      get_eq_of_found deser now st st key ns true it hgi⟩
  · intro st1 hgi
    exact add_eq_of_missing ser now putOk st st1 key ns v t hgi
  · intro st1 e hgi hti
    obtain ⟨kn, hkn⟩ := get_key_name_ok_of_get_item now st key ns true _ hgi
    obtain ⟨st2, hst2⟩ := set_ok ser now st1 key ns kn e v t hkn hti
    exact ⟨st2, by rw [add_eq_of_missing ser now true st st1 key ns v t hgi, hst2]⟩

/-- Witness for C6: on a store with a valid record for `"mykey"`, `add`
returns false and leaves the record readable; on the empty store the same
`add` delegates to `set` and succeeds. -/
theorem C6_add_spec_witness :
    (DatastoreCache.add (fun l : List Nat => l) 1000 true
      ⟨[⟨0, "mykey", [1, 2], maxSentinel⟩], 1⟩ (.vstr "mykey") [9] (.vnum 0)
      none = .ok (false, ⟨[⟨0, "mykey", [1, 2], maxSentinel⟩], 1⟩) ∧
     DatastoreCache.get (fun l : List Nat => l) 1000
      ⟨[⟨0, "mykey", [1, 2], maxSentinel⟩], 1⟩ (.vstr "mykey") none true =
      .ok (some [1, 2], ⟨[⟨0, "mykey", [1, 2], maxSentinel⟩], 1⟩)) ∧
    (∃ st2, DatastoreCache.add (fun l : List Nat => l) 1000 true ⟨[], 0⟩
      (.vstr "mykey") [9] (.vnum 0) none = .ok (true, st2)) :=
  ⟨(C6_add_spec (fun l : List Nat => l) (fun l : List Nat => l) 1000 true
      ⟨[⟨0, "mykey", [1, 2], maxSentinel⟩], 1⟩ (.vstr "mykey") [9] (.vnum 0)
      none).1 ⟨0, "mykey", [1, 2], maxSentinel⟩ rfl,
   (C6_add_spec (fun l : List Nat => l) (fun l : List Nat => l) 1000 true
      ⟨[], 0⟩ (.vstr "mykey") [9] (.vnum 0) none).2.2 ⟨[], 0⟩ maxSentinel
      rfl rfl⟩

/-- Claim C7: `replace` succeeds (delegating to `set`) iff a valid
(unexpired) entry currently exists for the key; when none exists it returns
false and creates no record, and on success a subsequent `get` yields the
new value. -/
theorem C7_replace_spec {V : Type} (ser : V → List Nat) (deser : List Nat → V)
    (now : Int) (putOk : Bool) (st : Store) (key : PyVal) (v : V) (t : PyVal)
    (ns : Option String) :
    (∀ st1, get_item now st key ns true = .ok (none, st1) →
      DatastoreCache.replace ser now putOk st key v t ns = .ok (false, st1) ∧
      (∀ j ∈ st1.items, j ∈ st.items) ∧
      st1.items.length ≤ st.items.length) ∧
    (∀ it : Item, get_item now st key ns true = .ok (some it, st) →
      DatastoreCache.replace ser now putOk st key v t ns =
        DatastoreCache.set ser now putOk st key v t ns) ∧
    (∀ (it : Item) (e : Int) (b : Bool) (st' : Store),
      get_item now st key ns true = .ok (some it, st) →
      parse_time now t = .ok e → now ≤ e →
      (st.items.map Item.cache_key).Nodup →
      (∀ w, deser (ser w) = w) →
      DatastoreCache.replace ser now true st key v t ns = .ok (b, st') →
      b = true ∧
      DatastoreCache.get deser now st' key ns true = .ok (some v, st')) := by
  refine ⟨?_, ?_, ?_⟩
  · intro st1 hgi
    exact ⟨replace_eq_of_missing ser now putOk st st1 key ns v t hgi,
      (get_item_store_shrinks now st st1 key ns true none hgi).1,
      (get_item_store_shrinks now st st1 key ns true none hgi).2⟩
  · intro it hgi
    exact replace_eq_of_found ser now putOk st st key ns it v t hgi
  · intro it e b st' hgi hti hnow hck hinv hrep
    rw [replace_eq_of_found ser now true st st key ns it v t hgi] at hrep
    exact set_then_get ser deser hinv now st key v t ns e b st' hck hti hnow hrep

/-- Witness for C7: `replace` on the empty store returns false and creates
nothing; on a store holding a valid record it overwrites the payload in
place and the new value is read back. -/
theorem C7_replace_spec_witness :
    (DatastoreCache.replace (fun l : List Nat => l) 1000 true ⟨[], 0⟩
      (.vstr "mykey") [9] (.vnum 0) none = .ok (false, ⟨[], 0⟩)) ∧
    (true = true ∧
     DatastoreCache.get (fun l : List Nat => l) 1000
       ⟨[⟨0, "mykey", [9], maxSentinel⟩], 1⟩ (.vstr "mykey") none true =
       .ok (some [9], ⟨[⟨0, "mykey", [9], maxSentinel⟩], 1⟩)) :=
  ⟨((C7_replace_spec (fun l : List Nat => l) (fun l : List Nat => l) 1000 true
      ⟨[], 0⟩ (.vstr "mykey") [9] (.vnum 0) none).1 ⟨[], 0⟩ rfl).1,
   (C7_replace_spec (fun l : List Nat => l) (fun l : List Nat => l) 1000 true
      ⟨[⟨0, "mykey", [1, 2], maxSentinel⟩], 1⟩ (.vstr "mykey") [9] (.vnum 0)
      none).2.2 ⟨0, "mykey", [1, 2], maxSentinel⟩ maxSentinel true
      ⟨[⟨0, "mykey", [9], maxSentinel⟩], 1⟩ rfl rfl (by decide) (by simp)
      (fun w => rfl) rfl⟩

/-- Claim C8: `delete` returns `ITEM_MISSING` (1) when no valid entry exists
for the key, `NETWORK_FAILURE` (0) when a valid entry is found but its
physical deletion fails, and `SUCCESSFUL` (2) when the found entry is
deleted; the `seconds` parameter is accepted but has no effect. -/
theorem C8_delete_spec (now : Int) (st : Store) (key : PyVal)
    (ns : Option String) (deleteOk : Bool) (seconds seconds' : Int) :
    (∀ st1, get_item now st key ns true = .ok (none, st1) →
      DatastoreCache.delete now deleteOk st key seconds ns = .ok (1, st1)) ∧
    (∀ it : Item, get_item now st key ns true = .ok (some it, st) →
      DatastoreCache.delete now false st key seconds ns = .ok (0, st) ∧
      DatastoreCache.delete now true st key seconds ns = .ok (2, st.del it)) ∧
    DatastoreCache.delete now deleteOk st key seconds ns =
      DatastoreCache.delete now deleteOk st key seconds' ns := by
  refine ⟨?_, ?_, rfl⟩
  · intro st1 hgi
    simp only [DatastoreCache.delete, hgi, Except.map]
  · intro it hgi
    constructor <;> simp only [DatastoreCache.delete, hgi, Except.map] <;> rfl

/-- Witness for C8: a miss on the empty store returns 1; on a store holding
one valid record, a failing physical delete returns 0 and a working one
returns 2 and removes the record; a different ignored `seconds` value leaves
the result unchanged. -/
theorem C8_delete_spec_witness :
    DatastoreCache.delete 1000 true ⟨[], 0⟩ (.vstr "k") 0 none =
      .ok (1, ⟨[], 0⟩) ∧
    (DatastoreCache.delete 1000 false ⟨[⟨0, "k", [1], maxSentinel⟩], 1⟩
      (.vstr "k") 0 none = .ok (0, ⟨[⟨0, "k", [1], maxSentinel⟩], 1⟩) ∧
     DatastoreCache.delete 1000 true ⟨[⟨0, "k", [1], maxSentinel⟩], 1⟩
      (.vstr "k") 0 none =
      .ok (2, (⟨[⟨0, "k", [1], maxSentinel⟩], 1⟩ : Store).del
        ⟨0, "k", [1], maxSentinel⟩)) ∧
    DatastoreCache.delete 1000 true ⟨[], 0⟩ (.vstr "k") 0 none =
      DatastoreCache.delete 1000 true ⟨[], 0⟩ (.vstr "k") 5 none :=
  ⟨(C8_delete_spec 1000 ⟨[], 0⟩ (.vstr "k") none true 0 0).1 ⟨[], 0⟩ rfl,
   (C8_delete_spec 1000 ⟨[⟨0, "k", [1], maxSentinel⟩], 1⟩ (.vstr "k") none
     true 0 0).2.1 ⟨0, "k", [1], maxSentinel⟩ rfl,
   (C8_delete_spec 1000 ⟨[], 0⟩ (.vstr "k") none true 0 5).2.2⟩

theorem filter_not_fetched (t d : List Item)
    (hdisj : (t.map Item.id).Disjoint (d.map Item.id)) :
    (t ++ d).filter (fun j => !(t.any fun f => f.id == j.id)) = d := by
  rw [List.filter_append]
  have h1 : t.filter (fun j => !(t.any fun f => f.id == j.id)) = [] := by
    rw [List.filter_eq_nil_iff]
    intro x hx
    simp only [Bool.not_eq_true']
    intro hc
    rw [List.any_eq_false] at hc
    exact hc x hx (by simp)
  have h2 : d.filter (fun j => !(t.any fun f => f.id == j.id)) = d := by
    rw [List.filter_eq_self]
    intro x hx
    simp only [Bool.not_eq_true', List.any_eq_false]
    intro f hf hbeq
    have hfx : f.id = x.id := by simpa using hbeq
    exact hdisj (List.mem_map_of_mem Item.id hf)
      (hfx ▸ List.mem_map_of_mem Item.id hx)
  rw [h1, h2, List.nil_append]

theorem filter_fetched_eq_drop (l : List Item) (n : Nat)
    (hid : (l.map Item.id).Nodup) :
    l.filter (fun j => !((l.take n).any fun f => f.id == j.id)) = l.drop n := by
  have hsplit : ((l.take n).map Item.id ++ (l.drop n).map Item.id).Nodup := by
    rw [← List.map_append, List.take_append_drop]
    exact hid
  have hdisj := (List.nodup_append.mp hsplit).2.2
  have key := filter_not_fetched (l.take n) (l.drop n) hdisj
  rw [List.take_append_drop] at key
  exact key

/-- Claim C9: `flush_all(max_items)` raises the invalid-argument error iff
`max_items` is outside `[1, 1000]`; otherwise it fetches up to `max_items`
records and bulk-deletes them, returning false if the bulk delete errors or
if at least one record remains afterwards, and true only when the store is
left empty. -/
theorem C9_flush_all_spec (dbDeleteOk : Bool) (st : Store) (m : Int)
    (hid : (st.items.map Item.id).Nodup) :
    ((m < 1 ∨ 1000 < m) ↔ ∃ msg, flush_all dbDeleteOk st m = .error msg) ∧
    (1 ≤ m → m ≤ 1000 → flush_all false st m = .ok (false, st)) ∧
    (1 ≤ m → m ≤ 1000 →
      ∃ b st', flush_all true st m = .ok (b, st') ∧
        st'.items = st.items.drop m.toNat ∧
        (b = true ↔ st'.items = [])) := by
  refine ⟨⟨fun h => ?_, fun h => ?_⟩, fun h1 h2 => ?_, fun h1 h2 => ?_⟩
  · exact ⟨_, by rw [flush_all, if_pos (by omega : m < 1 ∨ m > 1000)]⟩
  · by_contra hc
    push_neg at hc
    obtain ⟨msg, hmsg⟩ := h
    rw [flush_all, if_neg (by omega : ¬(m < 1 ∨ m > 1000))] at hmsg
    cases dbDeleteOk <;> simp at hmsg
  · rw [flush_all, if_neg (by omega : ¬(m < 1 ∨ m > 1000))]
    rfl
  · have hfe : st.items.filter
        (fun j => !((st.items.take m.toNat).any fun f => f.id == j.id)) =
        st.items.drop m.toNat := filter_fetched_eq_drop st.items m.toNat hid
    refine ⟨if (st.items.drop m.toNat).take 1 ≠ [] then false else true,
      ⟨st.items.drop m.toNat, st.nextId⟩, ?_, rfl, ?_⟩
    · rw [flush_all, if_neg (by omega : ¬(m < 1 ∨ m > 1000))]
      simp only [hfe, if_true]
    · cases hdrop : st.items.drop m.toNat <;> simp

/-- Witness for C9: `flush_all(0)` errors; with a working bulk delete,
flushing a two-record store with `max_items = 1` returns false and leaves
one record, while `max_items = 1000` returns true and empties the store. -/
theorem C9_flush_all_spec_witness :
    (∃ msg, flush_all true
      ⟨[⟨0, "1", [1], maxSentinel⟩, ⟨1, "2", [2], maxSentinel⟩], 2⟩ 0 =
      .error msg) ∧
    (∃ b st', flush_all true
      ⟨[⟨0, "1", [1], maxSentinel⟩, ⟨1, "2", [2], maxSentinel⟩], 2⟩ 1 =
      .ok (b, st') ∧
      st'.items = [⟨0, "1", [1], maxSentinel⟩,
        ⟨1, "2", [2], maxSentinel⟩].drop (1 : Int).toNat ∧
      (b = true ↔ st'.items = [])) ∧
    (∃ b st', flush_all true
      ⟨[⟨0, "1", [1], maxSentinel⟩, ⟨1, "2", [2], maxSentinel⟩], 2⟩ 1000 =
      .ok (b, st') ∧
      st'.items = [⟨0, "1", [1], maxSentinel⟩,
        ⟨1, "2", [2], maxSentinel⟩].drop (1000 : Int).toNat ∧
      (b = true ↔ st'.items = [])) :=
  ⟨((C9_flush_all_spec true
      ⟨[⟨0, "1", [1], maxSentinel⟩, ⟨1, "2", [2], maxSentinel⟩], 2⟩ 0
      (by simp)).1.mp (by norm_num)),
   (C9_flush_all_spec true
      ⟨[⟨0, "1", [1], maxSentinel⟩, ⟨1, "2", [2], maxSentinel⟩], 2⟩ 1
      (by simp)).2.2 (by norm_num) (by norm_num),
   (C9_flush_all_spec true
      ⟨[⟨0, "1", [1], maxSentinel⟩, ⟨1, "2", [2], maxSentinel⟩], 2⟩ 1000
      (by simp)).2.2 (by norm_num) (by norm_num)⟩

/-- Claim C10: an operation can return a miss/failure result while still
mutating store state through lazy expiration: `delete` on a key whose only
record is expired returns `ITEM_MISSING` (1) yet physically deletes that
record, and `replace` on such a key returns false yet also deletes the
expired record. -/
theorem C10_lazy_mutation {V : Type} (ser : V → List Nat) (now : Int)
    (st : Store) (key : PyVal) (ns : Option String) (kn : String) (it : Item)
    (deleteOk putOk : Bool) (v : V) (t : PyVal) (seconds : Int)
    (hkn : get_key_name key ns = .ok kn)
    (hfind : st.find kn = some it) (hexp : it.expire_at < now) :
    DatastoreCache.delete now deleteOk st key seconds ns =
      .ok (1, st.del it) ∧
    DatastoreCache.replace ser now putOk st key v t ns =
      .ok (false, st.del it) ∧
    ∀ j ∈ (st.del it).items, j.id ≠ it.id := by
  have hgi : get_item now st key ns true = .ok (none, st.del it) := by
    simpa using get_item_expired now st key ns true kn it hkn hfind hexp
  refine ⟨?_,
    replace_eq_of_missing ser now putOk st (st.del it) key ns v t hgi, ?_⟩
  · simp only [DatastoreCache.delete, hgi, Except.map]
  · intro j hj
    have hm := List.mem_filter.mp hj
    simpa using hm.2

/-- Witness for C10: on a store whose only record for `"k"` is expired at
time 100, `delete` reports the item missing and `replace` reports failure,
yet both leave the store without the record. -/
theorem C10_lazy_mutation_witness :
    DatastoreCache.delete 100 true ⟨[⟨0, "k", [1], 42⟩], 1⟩ (.vstr "k") 0
      none = .ok (1, (⟨[⟨0, "k", [1], 42⟩], 1⟩ : Store).del ⟨0, "k", [1], 42⟩) ∧
    DatastoreCache.replace (fun l : List Nat => l) 100 true
      ⟨[⟨0, "k", [1], 42⟩], 1⟩ (.vstr "k") [9] (.vnum 0) none =
      .ok (false, (⟨[⟨0, "k", [1], 42⟩], 1⟩ : Store).del ⟨0, "k", [1], 42⟩) ∧
    ∀ j ∈ ((⟨[⟨0, "k", [1], 42⟩], 1⟩ : Store).del
      ⟨0, "k", [1], 42⟩).items, j.id ≠ 0 :=
  C10_lazy_mutation (fun l : List Nat => l) 100 ⟨[⟨0, "k", [1], 42⟩], 1⟩
    (.vstr "k") none "k" ⟨0, "k", [1], 42⟩ true true [9] (.vnum 0) 0
    rfl rfl (by norm_num)

/-- Witness for the amended C4: a plain string, the tuple test cases from the
repository, a too-short tuple and a number, each evaluated concretely. -/
theorem C4_parse_key_spec_witness :
    parse_key (.vstr "whatever") = .ok "whatever" ∧
    parse_key (.vtuple [.vstr "what", .vstr "ever"]) = .ok "ever" ∧
    (∃ msg, parse_key (.vtuple [.vstr "whatever"]) = .error msg) ∧
    (∃ msg, parse_key (.vnum 3) = .error msg) :=
  ⟨C4_parse_key_spec.1 "whatever",
   C4_parse_key_spec.2.1 [.vstr "what", .vstr "ever"] "ever" (by norm_num) rfl,
   C4_parse_key_spec.2.2.2.1 [.vstr "whatever"] (by norm_num),
   C4_parse_key_spec.2.2.2.2 (.vnum 3) (fun s h => by cases h)
     (fun xs h => by cases h)⟩
